import Mathlib

/-!
Verification development for the agent-sandboxing orchestration core.

The definitions below are a shallow embedding of the TypeScript route
handlers of the repository:

* `webhookPOST` embeds `frontend/ai-sdk-starter-deepinfra/app/api/agent/webhook/route.ts`
* `respondPOST` embeds `frontend/ai-sdk-starter-deepinfra/app/api/agent/respond/route.ts`
* `startPOST` and `buildContextualPrompt` embed
  `frontend/ai-sdk-starter-deepinfra/app/api/agent/start/route.ts`
* `pollStep` embeds one iteration of the polling loop of
  `frontend/ai-sdk-starter-deepinfra/app/api/agent/[taskId]/stream/route.ts`

The Prisma store is modelled as in-memory lists of rows; `prisma.x.update`
is modelled as a lookup-then-map that fails (returns `none`, corresponding
to a thrown `P2025` error caught by the outer `catch`) when the row
is absent.  Timestamps (`new Date()`) are modelled as an explicit `now : Nat`
parameter.  JavaScript truthiness on optional strings (`""` and `undefined`
are both falsy) is modelled by `jsFalsy` / `jsOr`.
-/

namespace AgentSandbox

/-- Task status values used by the routes (stored as plain strings in the DB). -/
inductive Status
  | pending
  | running
  | awaiting_input
  | completed
  | failed
  | cancelled
deriving DecidableEq, Repr

/-- String form of a status, as interpolated into route responses. -/
def Status.str : Status → String
  | .pending => "pending"
  | .running => "running"
  | .awaiting_input => "awaiting_input"
  | .completed => "completed"
  | .failed => "failed"
  | .cancelled => "cancelled"

/-- The `pendingClarification` JSON blob `{question, context, options}`. -/
structure Clarification where
  question : String
  context : String
  options : List String
deriving DecidableEq, Repr

/-- One entry of the append-only `statusUpdates` JSON list. -/
structure StatusUpdate where
  message : String
  tool : Option String
  timestamp : Nat
deriving DecidableEq, Repr

/-- The `result` JSON blob.  The `completed` webhook stores
`{summary, actions_taken, files_created?}`; the `failed` webhook stores
`{error}`.  All fields are optional because consumers read them with
optional chaining. -/
structure StoredResult where
  summary : Option String := none
  actionsTaken : List String := []
  filesCreated : Option (List String) := none
  error : Option String := none
deriving DecidableEq, Repr

/-- One `AgentTask` row. -/
structure Task where
  id : String
  sessionId : Option String
  taskPrompt : String
  status : Status
  agentSessionId : Option String
  pendingClarification : Option Clarification
  statusUpdates : List StatusUpdate
  result : Option StoredResult
  completedAt : Option Nat
  createdAt : Nat
deriving DecidableEq, Repr

/-- One `ChatSession` row. -/
structure ChatSession where
  id : String
  userId : String
  agentSessionId : Option String
deriving DecidableEq, Repr

/-- The persistent store: the two tables the agent routes touch. -/
structure DB where
  tasks : List Task
  sessions : List ChatSession
deriving DecidableEq, Repr

/-- Point lookup `prisma.agentTask.findUnique({where: {id}})`. -/
def findTask (tasks : List Task) (id : String) : Option Task :=
  tasks.find? (fun t => t.id == id)

/-- Point lookup `prisma.chatSession.findUnique({where: {id}})`. -/
def findSession (sessions : List ChatSession) (id : String) : Option ChatSession :=
  sessions.find? (fun s => s.id == id)

/-- Partial-field update of the unique task row with the given id. -/
def updateTasks (tasks : List Task) (id : String) (f : Task → Task) : List Task :=
  tasks.map (fun t => if t.id == id then f t else t)

/-- Model of `prisma.agentTask.update({where: {id}, data})`: returns the new
table and the updated row, or `none` (a thrown `P2025`) when no row matches. -/
def prismaUpdateTask (tasks : List Task) (id : String) (f : Task → Task) :
    Option (List Task × Task) :=
  match findTask tasks id with
  | none => none
  | some t => some (updateTasks tasks id f, f t)

/-- Model of `prisma.chatSession.update({where: {id}, data})`. -/
def prismaUpdateSession (sessions : List ChatSession) (id : String)
    (f : ChatSession → ChatSession) : Option (List ChatSession) :=
  match findSession sessions id with
  | none => none
  | some _ => some (sessions.map (fun s => if s.id == id then f s else s))

/-- JavaScript truthiness of an optional string: `undefined` and `""` are falsy. -/
def jsFalsy : Option String → Bool
  | none => true
  | some s => s == ""

/-- JavaScript `a || b` on an optional string (`""` also falls through to `b`). -/
def jsOr (a : Option String) (b : String) : String :=
  match a with
  | none => b
  | some s => if s == "" then b else s

/-- The `result` payload of a `completed` webhook event. -/
structure CompletedPayload where
  summary : String
  actionsTaken : List String
  filesCreated : Option (List String) := none
deriving DecidableEq, Repr

/-- The discriminated union of the five webhook event kinds
declared at the top of `webhook/route.ts`. -/
inductive WebhookEvent
  | sessionStartedEv (taskId sessionId : String)
  | statusUpdateEv (taskId message : String) (tool : Option String)
  | clarificationNeededEv (taskId sessionId question context : String)
      (options : Option (List String))
  | completedEv (taskId sessionId : String) (result : CompletedPayload)
  | failedEv (taskId error : String)
deriving DecidableEq, Repr

/-- Result of `JSON.parse` on the webhook body: the parse can throw
(`malformed`), succeed with a `type` outside the five known kinds
(`unknownType`), or produce a typed event. -/
inductive ParsedBody
  | malformed
  | unknownType (taskId : String)
  | event (e : WebhookEvent)
deriving DecidableEq, Repr

/-- After a task update, the webhook handler mirrors the worker session id
onto the parent chat session when `task.sessionId` is truthy.  Returns the
new DB and the HTTP status of the whole request. -/
def mirrorSession (db : DB) (taskSessionId : Option String)
    (workerSessionId : String) : DB × Nat :=
  match taskSessionId with
  | none => (db, 200)
  | some cs =>
    if cs == "" then (db, 200)
    else
      match prismaUpdateSession db.sessions cs
          (fun s => { s with agentSessionId := some workerSessionId }) with
      | none => (db, 500)
      | some sessions2 => ({ db with sessions := sessions2 }, 200)

/-- The `switch (event.type)` body of the webhook handler.  Each branch is a
partial-field `prisma.agentTask.update`; none of the branches inspects the
current status of the task before writing. -/
def applyWebhookEvent (db : DB) (e : WebhookEvent) (now : Nat) : DB × Nat :=
  match e with
  | .sessionStartedEv tid sid =>
    match prismaUpdateTask db.tasks tid
        (fun t => { t with agentSessionId := some sid, status := .running }) with
    | none => (db, 500)
    | some (tasks2, updated) =>
      mirrorSession { db with tasks := tasks2 } updated.sessionId sid
  | .statusUpdateEv tid msg tool =>
    match prismaUpdateTask db.tasks tid
        (fun t => { t with statusUpdates :=
            t.statusUpdates ++ [⟨msg, tool, now⟩] }) with
    | none => (db, 500)
    | some (tasks2, _) => ({ db with tasks := tasks2 }, 200)
  | .clarificationNeededEv tid sid q c opts =>
    match prismaUpdateTask db.tasks tid
        (fun t => { t with
            status := .awaiting_input,
            agentSessionId := some sid,
            pendingClarification := some ⟨q, c, opts.getD []⟩ }) with
    | none => (db, 500)
    | some (tasks2, updated) =>
      mirrorSession { db with tasks := tasks2 } updated.sessionId sid
  | .completedEv tid sid r =>
    match prismaUpdateTask db.tasks tid
        (fun t => { t with
            status := .completed,
            agentSessionId := some sid,
            result := some { summary := some r.summary,
                             actionsTaken := r.actionsTaken,
                             filesCreated := r.filesCreated,
                             error := none },
            completedAt := some now }) with
    | none => (db, 500)
    | some (tasks2, updated) =>
      mirrorSession { db with tasks := tasks2 } updated.sessionId sid
  | .failedEv tid err =>
    match prismaUpdateTask db.tasks tid
        (fun t => { t with
            status := .failed,
            result := some { summary := none, actionsTaken := [],
                             filesCreated := none, error := some err } }) with
    | none => (db, 500)
    | some (tasks2, _) => ({ db with tasks := tasks2 }, 200)

/-- The `POST /api/agent/webhook` handler.  `sigOk` is the outcome of the
HMAC signature comparison (`signature !== expectedSignature`); when it fails
the route answers 401 before touching the body.  A body that fails
`JSON.parse` throws into the outer catch (500).  A body whose `type` is not
one of the five known kinds falls through the `switch` with no `default`
case and is acknowledged with `{ ok: true }` (200) without any DB write. -/
def webhookPOST (db : DB) (sigOk : Bool) (body : ParsedBody) (now : Nat) :
    DB × Nat :=
  if !sigOk then (db, 401)
  else
    match body with
    | .malformed => (db, 500)
    | .unknownType _ => (db, 200)
    | .event e => applyWebhookEvent db e now

/-- A call to `spawnModalAgent` (lib/modal.ts).  The webhook URL is built
from environment variables and carries no task-dependent information, so it
is elided from the model. -/
structure SpawnCall where
  taskId : String
  prompt : String
  resumeSessionId : Option String
deriving DecidableEq, Repr

/-- Outcome of the `POST /api/agent/respond` handler: the store after the
request, the HTTP status and JSON error/ok body, and the spawn calls that
were issued (in order). -/
structure RespondResult where
  db : DB
  response : Nat × String
  spawns : List SpawnCall
deriving DecidableEq, Repr

/-- The `POST /api/agent/respond` handler
(`frontend/ai-sdk-starter-deepinfra/app/api/agent/respond/route.ts`).
`spawnFails` tells whether the `spawnModalAgent` call throws; a throw lands
in the outer catch (500) after the task update has already been awaited.
The source guard `if (!task.agentSessionId)` is JS truthiness, so both a
missing and an empty-string session id take the 400 error path. -/
def respondPOST (db : DB) (taskId? response? : Option String)
    (spawnFails : Bool) : RespondResult :=
  if jsFalsy taskId? || jsFalsy response? then
    ⟨db, (400, "Missing taskId or response"), []⟩
  else
    let tid := taskId?.getD ""
    let resp := response?.getD ""
    match findTask db.tasks tid with
    | none => ⟨db, (404, "Task not found"), []⟩
    | some task =>
      if task.status ≠ .awaiting_input then
        ⟨db, (400, "Task is not awaiting input (status: " ++ task.status.str ++ ")"), []⟩
      else
        match task.agentSessionId with
        | none => ⟨db, (400, "Task has no agent session to resume"), []⟩
        | some sid =>
          if sid == "" then
            ⟨db, (400, "Task has no agent session to resume"), []⟩
          else
            let db1 : DB := { db with tasks := (updateTasks db.tasks tid
                (fun t => { t with status := .running, pendingClarification := none })) }
            let call : SpawnCall := ⟨tid, resp, some sid⟩
            if spawnFails then
              ⟨db1, (500, "Failed to submit response"), [call]⟩
            else
              ⟨db1, (200, "ok"), [call]⟩

/-- One entry of the in-memory conversation history built by the start
route (`TaskHistoryItem`). -/
structure TaskHistoryItem where
  role : Bool  -- true = user turn, false = assistant turn
  content : String
  timestamp : Nat
deriving DecidableEq, Repr

/-- JavaScript `Array.prototype.join(sep)`. -/
def joinSep (sep : String) : List String → String
  | [] => ""
  | [x] => x
  | x :: y :: xs => x ++ sep ++ joinSep sep (y :: xs)

/-- Rendering of one history item: `User: <content>` or `Assistant: <content>`. -/
def historyLine (item : TaskHistoryItem) : String :=
  (if item.role then "User" else "Assistant") ++ ": " ++ item.content

/-- ASCII apostrophe, spelled via its code point. -/
def apos : String := String.singleton (Char.ofNat 39)

/-- The fixed preamble of a contextual prompt with history. -/
def historyPreamble : String :=
  "## Conversation History\nThe following is the recent conversation history. Use this context to understand what has been discussed and what stage of any ongoing task you" ++ apos ++ "re in.\n\n"

/-- The fixed marker introducing the current request. -/
def currentRequestMarker : String := "\n\n## Current Request\n"

/-- `buildContextualPrompt` from `start/route.ts`: with an empty history the
current task prompt is returned unmodified; otherwise the rendered history
is wrapped between the fixed preamble and the current-request marker. -/
def buildContextualPrompt (currentTask : String)
    (history : List TaskHistoryItem) : String :=
  if history.isEmpty then currentTask
  else
    historyPreamble ++ joinSep "\n\n" (history.map historyLine)
      ++ currentRequestMarker ++ currentTask

/-- Insertion of one task into a list sorted by ascending `createdAt`. -/
def insertByCreated (t : Task) : List Task → List Task
  | [] => [t]
  | u :: us => if t.createdAt ≤ u.createdAt then t :: u :: us
               else u :: insertByCreated t us

/-- Sort by ascending `createdAt` (the `orderBy: { createdAt: "asc" }` clause). -/
def sortByCreated (l : List Task) : List Task :=
  l.foldr insertByCreated []

/-- Maximum number of prior tasks included in context (`MAX_HISTORY_TASKS`). -/
def MAX_HISTORY_TASKS : Nat := 10

/-- The `prisma.agentTask.findMany` call of the start route: tasks of the
session with status `completed` or `failed`, ordered by ascending
`createdAt`, first `MAX_HISTORY_TASKS` of them. -/
def listRecentTasks (tasks : List Task) (sessionId : String) : List Task :=
  (sortByCreated (tasks.filter (fun t =>
      t.sessionId == some sessionId ∧
        (t.status = .completed ∨ t.status = .failed)))).take MAX_HISTORY_TASKS

/-- The history-building loop of the start route: every prior task
contributes its user prompt; a `completed` task with a non-null result
contributes `result.summary || "Task completed."`, a `failed` task with a
non-null result contributes `Task failed: <error or fallback>`; a prior task
whose `result` is null contributes no assistant entry. -/
def taskHistory : List Task → List TaskHistoryItem
  | [] => []
  | t :: ts =>
    let userItem : TaskHistoryItem := ⟨true, t.taskPrompt, t.createdAt⟩
    let rest := taskHistory ts
    if t.status = .completed ∧ t.result.isSome then
      userItem :: ⟨false, jsOr ((t.result.getD {}).summary) "Task completed.",
        t.createdAt⟩ :: rest
    else if t.status = .failed ∧ t.result.isSome then
      userItem :: ⟨false, "Task failed: " ++ jsOr ((t.result.getD {}).error)
        "Unknown error", t.createdAt⟩ :: rest
    else
      userItem :: rest

/-- The contextual prompt the start route hands to the spawn call for a
given store, chat session and current task prompt. -/
def contextualPromptOf (tasks : List Task) (sessionId : String)
    (currentTask : String) : String :=
  buildContextualPrompt currentTask (taskHistory (listRecentTasks tasks sessionId))

/-- Outcome of the `POST /api/agent/start` handler. -/
structure StartResult where
  db : DB
  code : Nat
  spawns : List SpawnCall
  returnedTaskId : Option String
  returnedSessionId : Option String
deriving DecidableEq, Repr

/-- The `POST /api/agent/start` handler
(`frontend/ai-sdk-starter-deepinfra/app/api/agent/start/route.ts`).
Fresh row ids (`crypto` / database defaults) are passed in as
`newSessionId` / `newTaskId`; `now` models creation time.  When the
`spawnModalAgent` call throws (`spawnFails`), control lands in the outer
catch (500) after the task row has already been created in status
`pending`; the follow-up update to `running` is never reached. -/
def startPOST (db : DB) (task? chatSessionId? : Option String)
    (newSessionId newTaskId : String) (spawnFails : Bool) (now : Nat) :
    StartResult :=
  if jsFalsy task? then ⟨db, 400, [], none, none⟩
  else
    let task := task?.getD ""
    let found : Option ChatSession :=
      match chatSessionId? with
      | some cid => findSession db.sessions cid
      | none => none
    let (db1, session) :=
      match found with
      | some s => (db, s)
      | none =>
        let s : ChatSession := ⟨newSessionId, "anonymous", none⟩
        ({ db with sessions := db.sessions ++ [s] }, s)
    let contextualPrompt := contextualPromptOf db1.tasks session.id task
    let newTask : Task :=
      ⟨newTaskId, some session.id, task, .pending, none, none, [], none, none, now⟩
    let db2 : DB := { db1 with tasks := db1.tasks ++ [newTask] }
    let call : SpawnCall :=
      ⟨newTaskId, contextualPrompt,
        if jsFalsy session.agentSessionId then none else session.agentSessionId⟩
    if spawnFails then
      ⟨db2, 500, [call], none, none⟩
    else
      let db3 : DB := { db2 with tasks := (updateTasks db2.tasks newTaskId
          (fun t => { t with status := .running })) }
      ⟨db3, 200, [call], some newTaskId, some session.id⟩

/-- Events emitted on the SSE stream by the stream route. -/
inductive SSEEvent
  | connectedMsg (taskId : String)
  | statusMsg (taskId message : String) (tool : Option String)
  | clarificationMsg (taskId : String) (sessionId : Option String)
      (question context : String) (options : List String)
  | completedMsg (taskId : String) (sessionId : Option String)
      (result : StoredResult)
  | failedMsg (taskId error : String)
  | errorMsg (taskId message : String)
deriving DecidableEq, Repr

/-- Observer-side polling position: the last status string sent (`""`, i.e.
`none`, for a fresh connection) and the count of status updates already
forwarded. -/
structure PollState where
  lastStatus : Option Status
  lastUpdateCount : Nat
deriving DecidableEq, Repr

/-- Outcome of one iteration of the `poll` closure of the stream route:
the events enqueued during the iteration, whether `safeClose` was invoked
(closing the channel), whether another poll was scheduled, and the updated
polling position. -/
structure PollResult where
  events : List SSEEvent
  closed : Bool
  continues : Bool
  ps : PollState
deriving DecidableEq, Repr

/-- One iteration of the polling loop of
`frontend/ai-sdk-starter-deepinfra/app/api/agent/[taskId]/stream/route.ts`.
On a status change the handler emits the event for the new status; the
`completed` (with non-null result) and `failed` branches schedule
`safeClose` and return early; the `cancelled` status matches no branch.
Afterwards new `statusUpdates` entries are flushed, and polling continues
only while the status is non-terminal — with no close for `cancelled`. -/
def pollStep (db : DB) (taskId : String) (ps : PollState) : PollResult :=
  match findTask db.tasks taskId with
  | none => ⟨[.errorMsg taskId "Task not found"], true, false, ps⟩
  | some task =>
    let changed := ps.lastStatus ≠ some task.status
    let ps1 : PollState :=
      if changed then { ps with lastStatus := some task.status } else ps
    let statusEvents : List SSEEvent :=
      if changed then
        if task.status = .running then
          [.statusMsg taskId "Agent is working..." none]
        else if task.status = .awaiting_input ∧ task.pendingClarification.isSome then
          let c := task.pendingClarification.getD ⟨"", "", []⟩
          [.clarificationMsg taskId task.agentSessionId c.question c.context c.options]
        else []
      else []
    if changed ∧ task.status = .completed ∧ task.result.isSome then
      ⟨[.completedMsg taskId task.agentSessionId (task.result.getD {})],
        true, false, ps1⟩
    else if changed ∧ task.status = .failed then
      ⟨[.failedMsg taskId (jsOr ((task.result.getD {}).error) "Unknown error")],
        true, false, ps1⟩
    else
      let flushed :=
        if task.statusUpdates.length > ps1.lastUpdateCount then
          (task.statusUpdates.drop ps1.lastUpdateCount).map
            (fun u => SSEEvent.statusMsg taskId u.message u.tool)
        else []
      let ps2 : PollState :=
        if task.statusUpdates.length > ps1.lastUpdateCount then
          { ps1 with lastUpdateCount := task.statusUpdates.length }
        else ps1
      let terminal := task.status = .completed ∨ task.status = .failed
        ∨ task.status = .cancelled
      ⟨statusEvents ++ flushed, false, !terminal, ps2⟩

/-- Boolean test that `needle` is a prefix of `hay` (over characters). -/
def isPrefixOfChars : List Char → List Char → Bool
  | [], _ => true
  | _ :: _, [] => false
  | c :: cs, d :: ds => c == d && isPrefixOfChars cs ds

/-- Boolean substring test over characters. -/
def occursChars (needle : List Char) : List Char → Bool
  | [] => needle.isEmpty
  | c :: t => isPrefixOfChars needle (c :: t) || occursChars needle t

/-- Boolean substring test on strings. -/
def occursIn (needle hay : String) : Bool :=
  occursChars needle.data hay.data

/-- The string `s` contains every element of `l` as a substring, pairwise
disjoint and in the given order. -/
def containsInOrder : List Char → List (List Char) → Prop
  | _, [] => True
  | s, x :: xs => ∃ pre post, s = pre ++ x ++ post ∧ containsInOrder post xs

/-- The assistant-side rendering the start route produces for a prior
completed or failed task whose `result` is non-null. -/
def renderedOutcome (t : Task) : String :=
  if t.status = .completed then
    jsOr ((t.result.getD {}).summary) "Task completed."
  else
    "Task failed: " ++ jsOr ((t.result.getD {}).error) "Unknown error"

/-- The character strings each prior task contributes to the contextual
prompt, in order: its prompt, then its rendered outcome. -/
def taskContents : List Task → List (List Char)
  | [] => []
  | t :: ts => t.taskPrompt.data :: (renderedOutcome t).data :: taskContents ts

/-- Modelled from the spec and claim words only (for comparison with
`listRecentTasks`): the up-to-10 most recent completed/failed tasks of a
session, in chronological order — i.e. the LAST ten of the chronologically
ascending list, rather than the first ten that `listRecentTasks` takes. -/
def mostRecentTasks (tasks : List Task) (sessionId : String) : List Task :=
  let l := sortByCreated (tasks.filter (fun t =>
      t.sessionId == some sessionId ∧
        (t.status = .completed ∨ t.status = .failed)))
  l.drop (l.length - MAX_HISTORY_TASKS)

/-! Concrete fixtures used by the closed theorems below. -/

/-- A completed task with a given id suffix, prompt, summary and creation time. -/
def mkCompletedTask (n : Nat) (p s : String) : Task :=
  ⟨"t" ++ toString n, some "sess1", p, .completed, some "ws1", none, [],
    some { summary := some s, actionsTaken := [] }, some n, n⟩

/-- Eleven completed tasks of one session, created at times 1..11, with
prompts A..K; task K (created at 11) is the most recent. -/
def elevenTasks : List Task :=
  [mkCompletedTask 1 "A" "ok", mkCompletedTask 2 "B" "ok",
   mkCompletedTask 3 "C" "ok", mkCompletedTask 4 "D" "ok",
   mkCompletedTask 5 "E" "ok", mkCompletedTask 6 "F" "ok",
   mkCompletedTask 7 "G" "ok", mkCompletedTask 8 "H" "ok",
   mkCompletedTask 9 "I" "ok", mkCompletedTask 10 "J" "ok",
   mkCompletedTask 11 "K" "ok"]

/-- A task already cancelled by the user. -/
def cancelledTask : Task :=
  ⟨"t1", none, "list files", .cancelled, some "s1", none, [], none, none, 0⟩

/-- A task already completed at time 100, as the `completed` webhook leaves it. -/
def doneTask : Task :=
  ⟨"t2", none, "do it", .completed, some "s1", none, [],
    some { summary := some "done", actionsTaken := ["a"] }, some 100, 0⟩

/-- The `completed` payload that produced `doneTask`. -/
def donePayload : CompletedPayload := ⟨"done", ["a"], none⟩

/-- A task paused on a clarification request. -/
def waitingTask : Task :=
  ⟨"t3", none, "organize files", .awaiting_input, some "s1",
    some ⟨"Which directory?", "ctx", []⟩, [], none, none, 0⟩

/-- A second waiting task used by the respond-route theorems. -/
def waitingTaskR : Task :=
  ⟨"tr", none, "organize files", .awaiting_input, some "s9",
    some ⟨"Which directory?", "ctx", []⟩, [], none, none, 0⟩

/-- A task that has already failed. -/
def failedTaskF : Task :=
  ⟨"tf", none, "build it", .failed, some "s1", none, [],
    some { error := some "boom" }, none, 0⟩

end AgentSandbox

namespace AgentSandbox

theorem containsInOrder_prepend (p : List Char) {s : List Char}
    {l : List (List Char)} (h : containsInOrder s l) :
    containsInOrder (p ++ s) l := by
  cases l with
  | nil => trivial
  | cons x xs =>
    obtain ⟨pre, post, hs, hrest⟩ := h
    exact ⟨p ++ pre, post, by rw [hs]; simp [List.append_assoc], hrest⟩

/-- C1: a webhook event arriving for a task already in a terminal state is
NOT a no-op in the code.  The webhook handler applies every event
unconditionally — it never inspects the current status — so a
`clarification_needed` event delivered after cancellation is accepted
(HTTP 200) and moves the task from `cancelled` to `awaiting_input`,
setting `pendingClarification`, exactly what the claim rules out. -/
theorem webhook_applies_events_after_terminal_state :
    (let out := webhookPOST ⟨[cancelledTask], []⟩ true
      (.event (.clarificationNeededEv "t1" "s2" "Which directory?" "ctx" none)) 7
    out.2 = 200 ∧
      (findTask out.1.tasks "t1").map Task.status = some .awaiting_input ∧
      (findTask out.1.tasks "t1").map Task.pendingClarification =
        some (some ⟨"Which directory?", "ctx", []⟩) ∧
      cancelledTask.status = .cancelled) := by
  decide

/-- C2: redelivering a `completed` webhook event with an identical payload
is not idempotent in the code: the handler short-circuits nothing and
re-runs the update, so `completedAt` is overwritten with the redelivery
time (`now = 200`), no longer the original `100`.  (`statusUpdates` is
indeed untouched, but the claimed completedAt stability fails.) -/
theorem webhook_completed_redelivery_overwrites_completedAt :
    (let out := webhookPOST ⟨[doneTask], []⟩ true
      (.event (.completedEv "t2" "s1" donePayload)) 200
    doneTask.completedAt = some 100 ∧
      doneTask.result = some { summary := some "done", actionsTaken := ["a"] } ∧
      (findTask out.1.tasks "t2").map Task.completedAt = some (some 200) ∧
      (findTask out.1.tasks "t2").map Task.statusUpdates = some []) := by
  decide

/-- C3: the invariant `pendingClarification ≠ none ↔ status = awaiting_input`
is broken by the code: applying a `completed` event to a task in
`awaiting_input` sets the status to `completed` but never clears
`pendingClarification` (no webhook branch writes that field except
`clarification_needed`), leaving a completed task with a pending
clarification attached. -/
theorem webhook_completed_does_not_clear_pendingClarification :
    (let out := webhookPOST ⟨[waitingTask], []⟩ true
      (.event (.completedEv "t3" "s1" ⟨"sum", [], none⟩)) 50
    waitingTask.status = .awaiting_input ∧
      (findTask out.1.tasks "t3").map Task.status = some .completed ∧
      (findTask out.1.tasks "t3").map Task.pendingClarification =
        some (some ⟨"Which directory?", "ctx", []⟩)) := by
  decide

/-- C4: a spawn failure is never converted into a `failed` transition.  In
the start route the task row is created in `pending` before the spawn call;
when the spawn throws, the outer catch answers 500 and the follow-up update
to `running` is skipped, leaving the task in `pending` forever.  In the
respond route the task was already moved to `running` before the spawn, and
the throw leaves it there.  Neither path ever writes `failed`. -/
theorem spawn_failure_leaves_task_stuck :
    (let out := startPOST ⟨[], []⟩ (some "list files") none "S1" "T1" true 0
     out.code = 500 ∧ (findTask out.db.tasks "T1").map Task.status = some .pending) ∧
    (let rout := respondPOST ⟨[waitingTaskR], []⟩ (some "tr") (some "/tmp") true
     rout.response.1 = 500 ∧
       (findTask rout.db.tasks "tr").map Task.status = some .running) := by
  decide

/-- C9 counterexample: an inbound webhook whose `type` is not one of the
five known kinds is NOT rejected — the `switch` has no `default` case, so
the handler falls through and acknowledges the event with HTTP 200 and no
state change: a silent drop, which the claim says never happens. -/
theorem webhook_unknown_type_silently_acknowledged :
    webhookPOST ⟨[cancelledTask], []⟩ true (.unknownType "t1") 3 =
      (⟨[cancelledTask], []⟩, 200) := by
  decide

/-- C9 (amended): a webhook body that fails `JSON.parse` throws into the
outer catch and is rejected with a logged non-2xx response (500, not 400),
with no state change; but a body whose `type` is outside the five known
kinds is acknowledged with HTTP 200 and no state transition — silently
dropped rather than rejected. -/
theorem webhookPOST_parse_and_unknown_behaviour (db : DB) (now : Nat)
    (tid : String) :
    webhookPOST db true .malformed now = (db, 500) ∧
      webhookPOST db true (.unknownType tid) now = (db, 200) :=
  ⟨rfl, rfl⟩

/-- C5: full characterization of the respond route.  It succeeds only when
the task exists, is in `awaiting_input`, and has a truthy stored worker
session id (a missing AND an empty-string `agentSessionId` are both falsy
under the source guard `if (!task.agentSessionId)` and take the same
missing-session error), answering a distinct error otherwise (400 missing
fields, 404 unknown task, 400 not-awaiting with the status interpolated,
400 missing session); on the success path it clears `pendingClarification`,
sets the status to `running`, and issues exactly one resume spawn whose
resume handle is the stored `agentSessionId` and whose prompt is the
submitted response text. -/
theorem respondPOST_submitResponse_spec (db : DB) (tid resp : String)
    (sf : Bool) :
    let out := respondPOST db (some tid) (some resp) sf
    if tid = "" ∨ resp = "" then
      out = ⟨db, (400, "Missing taskId or response"), []⟩
    else
      match findTask db.tasks tid with
      | none => out = ⟨db, (404, "Task not found"), []⟩
      | some task =>
        if task.status = .awaiting_input then
          match task.agentSessionId with
          | none => out = ⟨db, (400, "Task has no agent session to resume"), []⟩
          | some sid =>
            if sid = "" then
              out = ⟨db, (400, "Task has no agent session to resume"), []⟩
            else
              out.spawns = [⟨tid, resp, some sid⟩] ∧
                out.db.tasks = updateTasks db.tasks tid
                  (fun t => { t with status := .running,
                                     pendingClarification := none }) ∧
                out.response =
                  (if sf then (500, "Failed to submit response") else (200, "ok"))
        else
          out = ⟨db, (400, "Task is not awaiting input (status: "
                    ++ task.status.str ++ ")"), []⟩ := by
  by_cases hempty : tid = "" ∨ resp = ""
  · simp only [hempty, if_true]
    rcases hempty with h | h <;> subst h <;> simp [respondPOST, jsFalsy]
  · simp only [hempty, if_false]
    have hje : (jsFalsy (some tid) || jsFalsy (some resp)) = false := by
      push_neg at hempty
      simp [jsFalsy, hempty.1, hempty.2]
    cases hft : findTask db.tasks tid with
    | none => simp [respondPOST, hje, hft]
    | some task =>
      by_cases hst : task.status = .awaiting_input
      · simp only [hst, if_true]
        cases hsid : task.agentSessionId with
        | none =>
          simp [respondPOST, hje, hft, hst, hsid]
        | some sid =>
          dsimp only
          by_cases hs0 : sid = ""
          · rw [if_pos hs0]
            subst hs0
            simp [respondPOST, hje, hft, hst, hsid]
          · rw [if_neg hs0]
            have hs0b : (sid == "") = false := by simp [hs0]
            cases sf <;> simp [respondPOST, hje, hft, hst, hsid, hs0b]
      · simp only [hst, if_false]
        simp [respondPOST, hje, hft, hst]

theorem findTask_updateTasks (tasks : List Task) (id : String)
    (f : Task → Task) (hid : ∀ u, (f u).id = u.id) {t : Task}
    (h : findTask tasks id = some t) :
    findTask (updateTasks tasks id f) id = some (f t) := by
  induction tasks with
  | nil => simp [findTask] at h
  | cons u us ih =>
    unfold findTask at h
    unfold findTask updateTasks
    simp only [List.map_cons]
    by_cases hu : (u.id == id) = true
    · have hhead : List.find? (fun t : Task => t.id == id) (u :: us) = some u :=
        List.find?_cons_of_pos _ hu
      rw [hhead] at h
      obtain rfl : u = t := Option.some.inj h
      rw [if_pos hu]
      have hid2 : ((f u).id == id) = true := by rw [hid u]; exact hu
      exact List.find?_cons_of_pos _ hid2
    · have hhead : List.find? (fun t : Task => t.id == id) (u :: us) =
          List.find? (fun t : Task => t.id == id) us :=
        List.find?_cons_of_neg _ hu
      rw [hhead] at h
      rw [if_neg hu]
      have htail := ih h
      have hstep : List.find? (fun t : Task => t.id == id)
          (u :: List.map (fun t => if (t.id == id) = true then f t else t) us) =
          List.find? (fun t : Task => t.id == id)
            (List.map (fun t => if (t.id == id) = true then f t else t) us) :=
        List.find?_cons_of_neg _ hu
      rw [hstep]
      exact htail

/-- C10: the respond route is not atomic with respect to its spawn step.
With the preconditions satisfied, the route persists the state change
(status `running`, `pendingClarification` cleared) before invoking the
resume spawn; when the spawn throws, the request answers 500 while the
already-persisted change remains: the task is left in `running` with its
clarification cleared, not restored to `awaiting_input`. -/
theorem respondPOST_not_atomic (db : DB) (tid resp : String) (t : Task)
    (sid : String) (htid : tid ≠ "") (hresp : resp ≠ "")
    (hf : findTask db.tasks tid = some t)
    (hst : t.status = .awaiting_input)
    (hsid : t.agentSessionId = some sid) (hsidne : sid ≠ "") :
    let out := respondPOST db (some tid) (some resp) true
    out.response = (500, "Failed to submit response") ∧
      out.spawns = [⟨tid, resp, some sid⟩] ∧
      findTask out.db.tasks tid =
        some { t with status := .running, pendingClarification := none } := by
  have hje : (jsFalsy (some tid) || jsFalsy (some resp)) = false := by
    simp [jsFalsy, htid, hresp]
  have hs0b : (sid == "") = false := by simp [hsidne]
  have hfind : findTask
      (updateTasks db.tasks tid
        (fun u => { u with status := .running, pendingClarification := none }))
      tid = some { t with status := .running, pendingClarification := none } :=
    findTask_updateTasks db.tasks tid
      (fun u => { u with status := .running, pendingClarification := none })
      (fun _ => rfl) hf
  simp [respondPOST, hje, hf, hst, hsid, hs0b, hfind]

/-- Witness for `respondPOST_not_atomic` at a concrete store: one waiting
task, a spawn call that throws. -/
theorem respondPOST_not_atomic_witness :
    let out := respondPOST ⟨[waitingTaskR], []⟩ (some "tr") (some "/tmp") true
    out.response = (500, "Failed to submit response") ∧
      out.spawns = [⟨"tr", "/tmp", some "s9"⟩] ∧
      findTask out.db.tasks "tr" =
        some { waitingTaskR with status := .running,
                                 pendingClarification := none } :=
  respondPOST_not_atomic ⟨[waitingTaskR], []⟩ "tr" "/tmp" waitingTaskR "s9"
    (by decide) (by decide) (by decide) (by decide) (by decide) (by decide)

/-- C7 counterexample: for a task that was cancelled, the stream does NOT
deliver a terminal event and does NOT close the channel.  An observer
connecting to the already-cancelled task gets a first poll that emits
nothing, schedules no further poll, and never calls close — the claim says
every terminal state (including `cancelled`) yields a terminal event
followed by channel close. -/
theorem stream_cancelled_never_closes :
    cancelledTask.status = .cancelled ∧
      pollStep ⟨[cancelledTask], []⟩ "t1" ⟨none, 0⟩ =
        ⟨[], false, false, ⟨some .cancelled, 0⟩⟩ := by
  decide

/-- C7 (amended): once `completed` (with a non-null result) or `failed` is
reached, the first poll of an observer delivers the single corresponding terminal
event, closes the channel, and stops polling — including an observer that
connects only after the terminal transition.  For `cancelled`, however, the
stream stops polling without delivering any terminal event and without
closing the channel. -/
theorem pollStep_terminal_behaviour (db : DB) (tid : String) (t : Task)
    (ps : PollState) (h : findTask db.tasks tid = some t)
    (hfresh : ps.lastStatus = none) :
    (t.status = .completed → t.result.isSome →
      pollStep db tid ps =
        ⟨[.completedMsg tid t.agentSessionId (t.result.getD {})], true, false,
          ⟨some .completed, ps.lastUpdateCount⟩⟩) ∧
    (t.status = .failed →
      pollStep db tid ps =
        ⟨[.failedMsg tid (jsOr ((t.result.getD {}).error) "Unknown error")],
          true, false, ⟨some .failed, ps.lastUpdateCount⟩⟩) ∧
    (t.status = .cancelled →
      (pollStep db tid ps).closed = false ∧
        (pollStep db tid ps).continues = false ∧
        ∀ e ∈ (pollStep db tid ps).events,
          ∃ m tool, e = SSEEvent.statusMsg tid m tool) := by
  obtain ⟨ls, luc⟩ := ps
  cases hfresh
  refine ⟨?_, ?_, ?_⟩
  · intro hst hres
    simp [pollStep, h, hst, hres]
  · intro hst
    simp [pollStep, h, hst]
  · intro hst
    refine ⟨?_, ?_, ?_⟩
    · simp [pollStep, h, hst]
    · simp [pollStep, h, hst]
    · intro e he
      simp only [pollStep, h, hst] at he
      simp at he
      have he2 : e ∈ List.map
          (fun u => SSEEvent.statusMsg tid u.message u.tool) t.statusUpdates :=
        List.mem_of_mem_drop he.2
      rcases List.mem_map.mp he2 with ⟨u, _, rfl⟩
      exact ⟨u.message, u.tool, rfl⟩

/-- Witness for `pollStep_terminal_behaviour`: a fresh observer connecting
to an already-completed task. -/
theorem pollStep_terminal_behaviour_witness :
    (doneTask.status = .completed → doneTask.result.isSome →
      pollStep ⟨[doneTask], []⟩ "t2" ⟨none, 0⟩ =
        ⟨[.completedMsg "t2" doneTask.agentSessionId (doneTask.result.getD {})],
          true, false, ⟨some .completed, 0⟩⟩) ∧
    (doneTask.status = .failed →
      pollStep ⟨[doneTask], []⟩ "t2" ⟨none, 0⟩ =
        ⟨[.failedMsg "t2"
            (jsOr ((doneTask.result.getD {}).error) "Unknown error")],
          true, false, ⟨some .failed, 0⟩⟩) ∧
    (doneTask.status = .cancelled →
      (pollStep ⟨[doneTask], []⟩ "t2" ⟨none, 0⟩).closed = false ∧
        (pollStep ⟨[doneTask], []⟩ "t2" ⟨none, 0⟩).continues = false ∧
        ∀ e ∈ (pollStep ⟨[doneTask], []⟩ "t2" ⟨none, 0⟩).events,
          ∃ m tool, e = SSEEvent.statusMsg "t2" m tool) :=
  pollStep_terminal_behaviour ⟨[doneTask], []⟩ "t2" doneTask ⟨none, 0⟩
    (by decide) rfl

theorem mem_insertByCreated {t x : Task} {l : List Task} :
    t ∈ insertByCreated x l ↔ t = x ∨ t ∈ l := by
  induction l with
  | nil => simp [insertByCreated]
  | cons u us ih =>
    unfold insertByCreated
    by_cases hc : x.createdAt ≤ u.createdAt
    · simp [hc]
    · simp only [if_neg hc, List.mem_cons, ih]
      tauto

theorem mem_sortByCreated {t : Task} {l : List Task} :
    t ∈ sortByCreated l ↔ t ∈ l := by
  induction l with
  | nil => simp [sortByCreated]
  | cons u us ih =>
    show t ∈ insertByCreated u (sortByCreated us) ↔ _
    rw [mem_insertByCreated, ih]
    simp [eq_comm]

theorem joinSep_historyLines (items : List TaskHistoryItem) (rest : List Char)
    (restL : List (List Char)) (h : containsInOrder rest restL) :
    containsInOrder ((joinSep "\n\n" (items.map historyLine)).data ++ rest)
      ((items.map (fun i => i.content.data)) ++ restL) := by
  induction items with
  | nil => simpa [joinSep] using h
  | cons i tail ih =>
    cases tail with
    | nil =>
      refine ⟨((if i.role then "User" else "Assistant") ++ ": ").data, rest,
        ?_, h⟩
      simp [joinSep, historyLine, List.append_assoc]
    | cons y ys =>
      refine ⟨((if i.role then "User" else "Assistant") ++ ": ").data,
        ("\n\n" : String).data
          ++ ((joinSep "\n\n" ((y :: ys).map historyLine)).data ++ rest),
        ?_, ?_⟩
      · simp [joinSep, historyLine, List.append_assoc]
      · exact containsInOrder_prepend _ ih

theorem taskHistory_contents (ts : List Task)
    (h : ∀ t ∈ ts,
      (t.status = .completed ∨ t.status = .failed) ∧ t.result.isSome) :
    (taskHistory ts).map (fun i => i.content.data) = taskContents ts := by
  induction ts with
  | nil => rfl
  | cons t ts ih =>
    obtain ⟨hst, hres⟩ := h t (by simp)
    have htail := ih (fun u hu => h u (by simp [hu]))
    unfold taskHistory taskContents
    rcases hst with hc | hf
    · rw [if_pos ⟨hc, hres⟩]
      simp only [List.map_cons, htail]
      simp [renderedOutcome, historyLine, hc]
    · have hnc : ¬(t.status = .completed ∧ t.result.isSome) := by
        rw [hf]; rintro ⟨h1, -⟩; cases h1
      rw [if_neg hnc, if_pos ⟨hf, hres⟩]
      simp only [List.map_cons, htail]
      simp [renderedOutcome, historyLine, hf]

/-- C6 (amended): `buildContextualPrompt` with zero prior tasks returns the
current prompt unmodified; with prior tasks (each carrying a non-null
result) the produced prompt contains every selected prior prompt and its
rendered summary-or-error, in chronological order, followed by the current
prompt — where the selected prior tasks are the up-to-10 OLDEST completed or
failed tasks of the session (the route orders by ascending `createdAt` and
takes the first `MAX_HISTORY_TASKS`), not the most recent ones. -/
theorem buildContextualPrompt_spec (tasks : List Task) (sid cur : String)
    (hres : ∀ t ∈ listRecentTasks tasks sid, (t.result).isSome) :
    (listRecentTasks tasks sid = [] → contextualPromptOf tasks sid cur = cur) ∧
      containsInOrder (contextualPromptOf tasks sid cur).data
        (taskContents (listRecentTasks tasks sid) ++ [cur.data]) ∧
      listRecentTasks tasks sid =
        (sortByCreated (tasks.filter (fun t => t.sessionId == some sid ∧
          (t.status = .completed ∨ t.status = .failed)))).take
            MAX_HISTORY_TASKS := by
  have hstat : ∀ t ∈ listRecentTasks tasks sid,
      t.status = .completed ∨ t.status = .failed := by
    intro t ht
    unfold listRecentTasks at ht
    have ht2 := List.mem_of_mem_take ht
    have ht3 := mem_sortByCreated.mp ht2
    have ht4 := (List.mem_filter.mp ht3).2
    exact (of_decide_eq_true ht4).2
  refine ⟨?_, ?_, rfl⟩
  · intro hempty
    simp [contextualPromptOf, hempty, taskHistory, buildContextualPrompt]
  · cases hrec : listRecentTasks tasks sid with
    | nil =>
      simp only [contextualPromptOf, hrec, taskHistory, taskContents,
        buildContextualPrompt, List.isEmpty_nil, if_true, List.nil_append]
      exact ⟨[], [], by simp, trivial⟩
    | cons r rs =>
      have hcontents := taskHistory_contents (r :: rs)
        (fun u hu => ⟨hstat u (hrec ▸ hu), hres u (hrec ▸ hu)⟩)
      have hne : ¬((taskHistory (r :: rs)).isEmpty = true) := by
        unfold taskHistory
        split
        · simp
        · split
          · simp
          · simp
      have hx := joinSep_historyLines (taskHistory (r :: rs))
        (currentRequestMarker.data ++ cur.data) [cur.data]
        ⟨currentRequestMarker.data, [], by simp, trivial⟩
      rw [hcontents] at hx
      have hy := containsInOrder_prepend historyPreamble.data hx
      unfold contextualPromptOf
      rw [hrec]
      unfold buildContextualPrompt
      rw [if_neg hne]
      simpa [List.append_assoc] using hy

/-- Witness for `buildContextualPrompt_spec`: a session with one completed
prior task. -/
theorem buildContextualPrompt_spec_witness :
    (listRecentTasks [mkCompletedTask 1 "A" "ok"] "sess1" = [] →
      contextualPromptOf [mkCompletedTask 1 "A" "ok"] "sess1" "current"
        = "current") ∧
      containsInOrder
        (contextualPromptOf [mkCompletedTask 1 "A" "ok"] "sess1" "current").data
        (taskContents (listRecentTasks [mkCompletedTask 1 "A" "ok"] "sess1")
          ++ [("current" : String).data]) ∧
      listRecentTasks [mkCompletedTask 1 "A" "ok"] "sess1" =
        (sortByCreated ([mkCompletedTask 1 "A" "ok"].filter
          (fun t => t.sessionId == some "sess1" ∧
            (t.status = .completed ∨ t.status = .failed)))).take
              MAX_HISTORY_TASKS :=
  buildContextualPrompt_spec [mkCompletedTask 1 "A" "ok"] "sess1" "current"
    (by decide)

/-- C6 counterexample: the prior tasks included in the contextual prompt
are NOT the up-to-10 most recent completed/failed tasks.  With eleven
completed tasks (prompts A..K, created at times 1..11), the ten most recent
ones include the task with prompt K, yet the prompt the route builds does
not contain the character K anywhere: the query orders by ascending
`createdAt` and takes the FIRST ten, so the newest task is dropped. -/
theorem contextual_prompt_omits_most_recent_task :
    ("K" ∈ (mostRecentTasks elevenTasks "sess1").map Task.taskPrompt) ∧
      occursIn "K" (contextualPromptOf elevenTasks "sess1" "the current request")
        = false := by
  refine ⟨by decide, ?_⟩
  set_option maxRecDepth 10000 in decide

end AgentSandbox
